import Mathlib

/-!
Verification of the result reconciliation and enrichment pipeline
(`data_sorting.py`, `filters.py`, `llm.py`, `main.py`, `configuration.py`).

The pandas DataFrame is modelled as a `List Row`; a `NaN` cell of a string
column is `Option.none`.  Python string operations are modelled on
`String.data` (a Python `str` is a sequence of code points, exactly a
`List Char`).  Network collaborators (newspaper, requests, htmldate, the
LLM) are passed in as oracle functions, following the spec's view of them
as opaque fallible functions of the URL.
-/

namespace KSEA

/-! ## Python string primitives -/

/-- Python `s.lower()` (ASCII range; no lowercase claim involves non-ASCII). -/
def pyLower (s : String) : String := ⟨s.data.map Char.toLower⟩

/-- Python `s[:n]` on a string: the first `n` code points. -/
def pyTake (n : Nat) (s : String) : String := ⟨s.data.take n⟩

/-- Boolean list-prefix test (Python `startswith` on code-point lists). -/
def isPre : List Char → List Char → Bool
  | [], _ => true
  | _ :: _, [] => false
  | a :: as, b :: bs => a == b && isPre as bs

/-- Python `s.startswith(p)`. -/
def pyStartsWith (p s : String) : Bool := isPre p.data s.data

/-- Python `s.endswith(p)`. -/
def pyEndsWith (p s : String) : Bool := isPre p.data.reverse s.data.reverse

/-- Substring occurrence on code-point lists. -/
def containsSub (hay pat : List Char) : Bool :=
  match hay with
  | [] => pat.isEmpty
  | _ :: t => isPre pat hay || containsSub t pat

/-- Python `needle in hay` for strings. -/
def pyIn (needle hay : String) : Bool := containsSub hay.data needle.data

/-- Fuel-driven worker for `removeAll` (each step consumes at least one
character, so `l.length` fuel always suffices; the fuel keeps the
recursion structural, hence kernel-reducible). -/
def removeAllF (pat : List Char) : Nat → List Char → List Char
  | _, [] => []
  | 0, l => l
  | fuel + 1, c :: cs =>
    if pat ≠ [] && isPre pat (c :: cs) then
      removeAllF pat fuel ((c :: cs).drop pat.length)
    else
      c :: removeAllF pat fuel cs

/-- Python `s.replace(pat, "")` with a non-empty pattern: every
left-to-right non-overlapping occurrence of `pat` is removed. -/
def removeAll (pat l : List Char) : List Char := removeAllF pat l.length l

/-- Python `s.strip()`: leading and trailing whitespace removed. -/
def pyStrip (s : String) : String :=
  ⟨((s.data.dropWhile Char.isWhitespace).reverse.dropWhile Char.isWhitespace).reverse⟩

/-! ## `urllib.parse.urlparse` netloc extraction

`urlparse(url).netloc`: after an optional `scheme:` head (first char
alphabetic, rest alphanumeric or `+`/`-`/`.`), the netloc is present only
when the remainder begins with `//`, and extends to the first `/`, `?`
or `#`. -/

def isSchemeChar (c : Char) : Bool :=
  c.isAlpha || c.isDigit || c == '+' || c == '-' || c == '.'

/-- Drop a valid `scheme:` head, if present. -/
def dropScheme (u : List Char) : List Char :=
  let pre := u.takeWhile (fun c => c ≠ ':')
  let rest := u.dropWhile (fun c => c ≠ ':')
  match rest with
  | ':' :: after =>
    match pre with
    | [] => u
    | c :: cs => if c.isAlpha && cs.all isSchemeChar then after else u
  | _ => u

/-- Model of `urlparse(url).netloc`. -/
def pyNetloc (url : String) : String :=
  let r := dropScheme url.data
  match r with
  | '/' :: '/' :: rest =>
    ⟨rest.takeWhile (fun c => c ≠ '/' && c ≠ '?' && c ≠ '#')⟩
  | _ => ""

/-! ## The table model -/

/-- One row of the working table.  String columns that the code reads
through `pd.isna` / may hold `NaN` are `Option String`. -/
structure Row where
  person : String
  title : String
  date : Option String
  source : String
  link : Option String
  titleText : Option String
deriving DecidableEq, Repr

/-! ## Canonicalizer: `DataSorting.remove_duplicates`, `DataSorting.rename_person` -/

/-- Worker for `drop_duplicates(subset=['Link'], keep='first')`: keep a row
iff its `Link` has not been seen before (pandas treats `NaN` link values as
duplicates of one another, as does `Option.none` here). -/
def dedupGo (seen : List (Option String)) : List Row → List Row
  | [] => []
  | r :: rs =>
    if seen.contains r.link then dedupGo seen rs
    else r :: dedupGo (r.link :: seen) rs

/-- Model of `DataSorting.remove_duplicates` on the table. -/
def removeDuplicates (T : List Row) : List Row := dedupGo [] T

/-- First-match association lookup: Python `dict` access for the
rewrite mapping (keys are unique in the source dict). -/
def lookupStr : List (String × String) → String → Option String
  | [], _ => none
  | (k, v) :: rest, p => if k == p then some v else lookupStr rest p

/-- One row of `df['Person'].replace(M)`: a `Person` value equal to a key
of `M` is rewritten to its image, any other value passes through. -/
def renameRow (M : List (String × String)) (r : Row) : Row :=
  match lookupStr M r.person with
  | some v => { r with person := v }
  | none => r

/-- Model of `DataSorting.rename_person`: `df['Person'].replace(M)` on the table. -/
def renamePerson (M : List (String × String)) (T : List Row) : List Row :=
  T.map (renameRow M)

/-! ## URL relevance filters

Two implementations exist in the source: `DataSorting._check_relevance`
(data_sorting.py) and `LinkFilter.is_relevant` (filters.py).  Both read
their lists from instance state set in `__init__`; they are parameters
here.  A non-string `Link` cell (`None`/`NaN`) is `Option.none`. -/

/-- The host `DataSorting._check_relevance` derives from a URL:
`urlparse(url.lower()).netloc.lower()` with one leading `"www."` stripped. -/
def extractDomain (url : String) : String :=
  let dom := pyLower (pyNetloc (pyLower url))
  if pyStartsWith "www." dom then ⟨dom.data.drop 4⟩ else dom

/-- The blacklist loop of `_check_relevance`: the domain equals an entry,
or ends with `"." + entry`, or starts with `entry + "."`. -/
def domainBlacklisted (B : List String) (dom : String) : Bool :=
  B.any (fun b =>
    dom == b || pyEndsWith ("." ++ b) dom || pyStartsWith (b ++ ".") dom)

/-- Model of `DataSorting._check_relevance(url)` with blacklist `B` and URL stop
words `S`.  The second, redundant `domain in blacklisted_domains` test of
the source (line 182) is kept. -/
def check_relevance (B S : List String) (url : Option String) : Bool :=
  match url with
  | none => false
  | some u0 =>
    let u := pyLower u0
    let dom := extractDomain u0
    if domainBlacklisted B dom then false
    else if B.contains dom then false
    else if S.any (fun w => pyIn w u) then false
    else true

/-- Model of `LinkFilter.is_relevant(url, title)` with blacklist `B`, URL stop words
`S` and title stop words `TS`.  Its domain is derived with
`.replace('www.', '')`, which removes every occurrence, and it is tested
for exact membership in `B` only.  (`title.lower()` is applied when the
title is truthy; an empty title is unchanged, and `pyLower "" = ""`.) -/
def is_relevant (B S TS : List String) (url : Option String) (title : String) : Bool :=
  match url with
  | none => false
  | some u0 =>
    let u := pyLower u0
    let t := pyLower title
    let dom : String := ⟨removeAll "www.".data (pyLower (pyNetloc u)).data⟩
    if B.contains dom then false
    else if S.any (fun w => pyIn w u) then false
    else if TS.any (fun w => pyIn w t) then false
    else true

/-- Model of `DataSorting.apply_url_filter`: keep the rows whose `Link` passes
`_check_relevance`. -/
def applyUrlFilter (B S : List String) (T : List Row) : List Row :=
  T.filter (fun r => check_relevance B S r.link)

/-! ## `DataSorting.remove_by_links`

The source joins the configured entries with `'|'` and filters with
`df['Link'].str.contains(pattern, na=False)`, i.e. a *regular-expression*
search (`regex=True` is the pandas default), keeping the rows where the
pattern does not occur and always keeping rows with a `NaN` link.
The regex fragment actually exercised by the configured entries is:
literal characters, `.` (any character except a newline), `?` (previous
atom optional) and the top-level `|` alternation introduced by the join.
That fragment is modelled here. -/

/-- One regex atom. -/
inductive RTok where
  | dot : RTok
  | lit : Char → RTok
deriving DecidableEq, Repr

/-- An atom with its `?` (optional) flag. -/
structure RItem where
  tok : RTok
  opt : Bool
deriving DecidableEq, Repr

/-- Translate a character into its atom. -/
def tokOf (c : Char) : RTok := if c == '.' then RTok.dot else RTok.lit c

/-- Parse one alternative into a list of atoms, attaching a following
`?` to the atom before it. -/
def parseRegex : List Char → List RItem
  | [] => []
  | c :: '?' :: rest => ⟨tokOf c, true⟩ :: parseRegex rest
  | c :: rest => ⟨tokOf c, false⟩ :: parseRegex rest

/-- Does an atom match one character?  `.` matches anything but `'\n'`. -/
def tokMatch : RTok → Char → Bool
  | RTok.dot, c => c ≠ '\n'
  | RTok.lit a, c => a == c

/-- Fuel-driven worker for `matchHere` (`items.length + s.length` fuel
always suffices; the fuel keeps the recursion structural, hence
kernel-reducible). -/
def matchHereF : Nat → List RItem → List Char → Bool
  | _, [], _ => true
  | 0, _ :: _, _ => false
  | f + 1, i :: is, [] => i.opt && matchHereF f is []
  | f + 1, i :: is, c :: cs =>
    (tokMatch i.tok c && matchHereF f is cs) || (i.opt && matchHereF f is (c :: cs))

/-- Match a list of atoms against a prefix of `s`. -/
def matchHere (items : List RItem) (s : List Char) : Bool :=
  matchHereF (items.length + s.length) items s

/-- Model of `re.search`: the atoms match at some position of `s`. -/
def rsearch (items : List RItem) : List Char → Bool
  | [] => matchHere items []
  | c :: cs => matchHere items (c :: cs) || rsearch items cs

/-- Split a joined pattern at top-level `|` (splitting the empty pattern
yields one empty alternative, as in `re`). -/
def splitPipe : List Char → List (List Char)
  | [] => [[]]
  | c :: rest =>
    if c = '|' then [] :: splitPipe rest
    else
      match splitPipe rest with
      | [] => [[c]]
      | a :: as => (c :: a) :: as

/-- Python `'|'.join(...)` on code-point lists. -/
def joinPipe : List (List Char) → List Char
  | [] => []
  | [x] => x
  | x :: xs => x ++ '|' :: joinPipe xs

/-- Model of `pattern` occurs in `s` (pandas `str.contains` with a regex pattern). -/
def regexContains (pattern : List Char) (s : List Char) : Bool :=
  (splitPipe pattern).any (fun alt => rsearch (parseRegex alt) s)

/-- Model of `DataSorting.remove_by_links(links)`: drop the rows whose `Link`
matches the joined pattern; `na=False` keeps every `NaN` link. -/
def removeByLinks (links : List String) (T : List Row) : List Row :=
  let pattern := joinPipe (links.map String.data)
  T.filter (fun r =>
    match r.link with
    | none => true
    | some l => !(regexContains pattern l.data))

/-! ## Fallback enrichment chain

The three network collaborators are oracle parameters:
* `newsOracle url`: `newspaper.Article` download+parse.  `none` = an
  exception was raised (caught by the source); `some (text, pdate)` =
  success with the extracted `article.text` (possibly `""`, which Python
  treats as falsy) and `article.publish_date` (`none` = no date).
* `dateOracle url`: `htmldate.find_date`.  `none` = exception;
  `some none` = no date found; `some (some d)` = a date string.
* `reqOracle url`: `requests.get` + BeautifulSoup `get_text`.  `none` =
  exception; `some body` = the page text.

Source default `max_text_save_len = 1500` is passed explicitly by the
callers modelled here, matching the Python default argument. -/

/-- Model of `DataSorting._newspaper_parse(index)`.  Note that the extracted text is
written *unconditionally* whenever `article.text` is truthy, while the date
is written only when `Date` is currently `NaN`. -/
def newspaperParse (newsOracle : String → Option (String × Option String))
    (maxLen : Nat) (r : Row) : Row :=
  match r.link with
  | none => r
  | some url =>
    match newsOracle url with
    | none => r
    | some (text, pdate) =>
      let r1 := if text == "" then r else { r with titleText := some (pyTake maxLen text) }
      match pdate with
      | some d => if r1.date = none then { r1 with date := some d } else r1
      | none => r1

/-- Model of `DataSorting._find_single_date(index)`. -/
def findSingleDate (dateOracle : String → Option (Option String)) (r : Row) : Row :=
  match r.link with
  | none => r
  | some url =>
    match dateOracle url with
    | none => r
    | some none => r
    | some (some d) => { r with date := some d }

/-- Worker for Python `s.split()`: accumulate the current word (reversed)
while scanning. -/
def splitWSAux (cur : List Char) : List Char → List (List Char)
  | [] => if cur.isEmpty then [] else [cur.reverse]
  | c :: cs =>
    if c.isWhitespace then
      if cur.isEmpty then splitWSAux [] cs else cur.reverse :: splitWSAux [] cs
    else splitWSAux (c :: cur) cs

/-- Python `s.split()`: maximal whitespace-free words of `s`, no empties. -/
def splitWS (l : List Char) : List (List Char) := splitWSAux [] l

/-- Join word lists with single spaces. -/
def joinSpace : List (List Char) → List Char
  | [] => []
  | [x] => x
  | x :: xs => x ++ ' ' :: joinSpace xs

/-- Python `" ".join(s.split())` on a string. -/
def collapseWS (s : String) : String := ⟨joinSpace (splitWS s.data)⟩

/-- The body-text half of `DataSorting._requests_parse`: a fetch happens
only when `Tittle text` is `NaN`; the fetched text has its whitespace
collapsed and is truncated.  (`link` is the URL read from the row at the
top of `_requests_parse`.) -/
def requestsText (reqOracle : String → Option String) (maxLen : Nat)
    (link : Option String) (r1 : Row) : Row :=
  if r1.titleText = none then
    match link with
    | none => r1
    | some url =>
      match reqOracle url with
      | none => r1
      | some body => { r1 with titleText := some (pyTake maxLen (collapseWS body)) }
  else r1

/-- Model of `DataSorting._requests_parse(index)`: a date is looked up only when
`Date` is `NaN`, then the body-text half runs. -/
def requestsParse (dateOracle : String → Option (Option String))
    (reqOracle : String → Option String) (maxLen : Nat) (r : Row) : Row :=
  requestsText reqOracle maxLen r.link
    (if r.date = none then findSingleDate dateOracle r else r)

/-- The date-normalization step at the end of
`DataSorting.fill_single_blank_slot`: `if pd.notna(Date): Date = str(Date)[:10]`. -/
def normalizeDate : Option String → Option String
  | none => none
  | some s => some (pyTake 10 s)

/-- Model of `DataSorting.fill_single_blank_slot(index)`: skip rows with an empty or
`NaN` link, otherwise run the two strategies in order and normalize the
resulting date. -/
def fillSingleBlankSlot (newsOracle : String → Option (String × Option String))
    (dateOracle : String → Option (Option String))
    (reqOracle : String → Option String) (r : Row) : Row :=
  if r.link = none ∨ r.link = some "" then r
  else
    let r1 := newspaperParse newsOracle 1500 r
    let r2 := requestsParse dateOracle reqOracle 1500 r1
    { r2 with date := normalizeDate r2.date }

/-- Model of `DataSorting.fill_all_blank_slots`: every row of the model already
carries the `Tittle text` field (a table fresh from the raw CSV has it
`none` on every row, which is what creating the column with `None` does);
then `fill_single_blank_slot` runs on each row. -/
def fillAllBlankSlots (newsOracle : String → Option (String × Option String))
    (dateOracle : String → Option (Option String))
    (reqOracle : String → Option String) (T : List Row) : List Row :=
  T.map (fillSingleBlankSlot newsOracle dateOracle reqOracle)

/-! ## `LLM.is_article` (llm.py)

`_create_completion` returns `response...content.strip()`; `is_article`
compares its lower-cased value with the literal `"yes"`.  The oracle's raw
textual answer is the parameter. -/

/-- Model of `LLM.is_article` as a function of the oracle's raw answer. -/
def is_article (answer : String) : Bool := pyLower (pyStrip answer) == "yes"

/-! ## `main.process_and_sort_data` (main.py)

The orchestration over the in-memory table.  After enrichment the source
executes `sorter.apply_ai_filter()`; the `DataSorting` class defines no
attribute of that name anywhere in the repository, so Python attribute
lookup fails there.  The lookup is modelled by an `Option`al method that
is `none`, and the raised `AttributeError` by `Except.error`. -/

/-- Lexicographic string order (pandas object-dtype comparison). -/
def charsLE : List Char → List Char → Bool
  | [], _ => true
  | _ :: _, [] => false
  | a :: as, b :: bs => a < b || (a == b && charsLE as bs)

/-- Model of `sort_values(by='Date', ascending=True)`: non-null dates ascending,
`NaN` placed last (`na_position='last'`). -/
def dateLE (a b : Option String) : Bool :=
  match a, b with
  | none, none => true
  | none, some _ => false
  | some _, none => true
  | some x, some y => charsLE x.data y.data

/-- Model of `DataSorting.sort_by_column("Date", ascending=True)` on the model. -/
def sortByDate (T : List Row) : List Row :=
  T.mergeSort (fun a b => dateLE a.date b.date)

/-- Attribute lookup for `sorter.apply_ai_filter`: `DataSorting` (and the
whole repository) defines no such method, so the lookup yields nothing. -/
def lookupApplyAiFilter : Option (List Row → List Row) := none

/-- Model of `main.process_and_sort_data` on the table abstraction (CSV read/write
is outside the table model).  `B`/`S` are the configured blacklist and URL
stop words, `M` the rewrite mapping, `L` the links-to-remove patterns. -/
def process_and_sort_data (B S : List String) (M : List (String × String))
    (L : List String)
    (newsOracle : String → Option (String × Option String))
    (dateOracle : String → Option (Option String))
    (reqOracle : String → Option String)
    (T : List Row) : Except String (List Row) :=
  let t1 := renamePerson M (removeDuplicates T)
  let t2 := removeByLinks L t1
  let t3 := applyUrlFilter B S t2
  let t4 := fillAllBlankSlots newsOracle dateOracle reqOracle t3
  match lookupApplyAiFilter with
  | none =>
    Except.error "AttributeError: DataSorting object has no attribute apply_ai_filter"
  | some f => Except.ok (sortByDate (f t4))

/-! ## Configuration (configuration.py)

Transcribed verbatim.  Python implicit string concatenation applies twice
in `BLACKLISTED_DOMAINS` (a missing comma after `"agroberichtenbuitenland.nl"`
and after the second `"savvy.ua"` fuses each with the following literal),
so the runtime list has 192 elements, two of them fused strings. -/

def blacklisted_domains : List String :=
  [ "kse.ua", "vk.com", "facebook.com", "linkedin.com", "instagram.com", "opendatabot.ua", "t.me",
    "tiktok.com", "letterboxd.com", "goodreads.com", "scholar.google.com", "academia.edu",
    "scribd.com", "journals.sagepub.com", "freepolicybriefs.org", "youcontrol.com",
    "swrailway.gov.ua", "sinoptik.ua", "gismeteo.ua", "agroberichtenbuitenland.nlmedicalplaza.ua",
    "khmilclinic.com.ua", "blagovist.ua", "vkursi.pro", "scanbe.io", "meteo.gov.ua", "olx.ua",
    "prom.ua", "rozetka.com.ua", "hotline.ua", "petition.president.gov.ua", "itbox.ua",
    "foxtrot.com.ua", "kabanchik.ua", "work.ua", "rabota.ua", "ua.jooble.org", "e-schools.info",
    "shkola.ua", "dpa.testportal.gov.ua", "data-ua.com", "snu.edu.ua", "snu.edu.ua",
    "volyn.com.ua", "tyzhden.ua", "kse.medium.com", "kpi.stu.cn.ua", "ippo.kubg.edu.ua",
    "detector.media", "kyivoperativ.info", "economyandsociety.in.ua", "dspace.uzhnu.edu.ua",
    "er.knutd.edu.ua", "are-journal.com", "man.org.ua", "bazekon.icm.edu.pl",
    "pmc.ncbi.nlm.nih.gov", "kaf.ep.ontu.edu.ua", "astrid-online.it", "mdpi.com", "aeaweb.org",
    "es.khpi.edu.ua", "eapk.com.ua", "ir.kneu.edu.ua", "researchgate.net", "philarchive.org",
    "dlf.ua", "isg-journal.com", "ier.com.ua", "case-ukraine.com.ua", "gtap.agecon.purdue.edu",
    "onlinelibrary.wiley.com", "econpapers.repec.org", "www2.ifrn.edu.br", "ideas.repec.org",
    "cgspace.cgiar.org", "gmd.copernicus.org", "publications.jrc.ec.europa.eu", "opsaa.iica.int",
    "iopscience.iop.org", "sciencedirect.com", "od.vgorode.ua", "gurt.org.ua", "ostroh.info",
    "inneco.org", "dev.ua", "lvet.edu.ua", "maryanivskatg.gov.ua", "ecd.tdmu.edu.ua",
    "kiu.europa-uni.de", "supernet.isenberg.umass.edu", "papers.ssrn.com", "x.com",
    "universityworldnews.com", "vhptu5.vn.ua", "savvy.uaacademic.oup.com", "arxiv.org",
    "tandfonline.com", "ageconsearch.umn.edu", "a95.ua", "ukr-revolution.history.org.ua",
    "agromaster.info", "shpolyanochka.com.ua", "repo.btu.kharkiv.ua", "kr-rada.gov.ua",
    "biotechuniv.edu.ua", "uk.wikipedia.org", "chesno.org", "open.spotify.com", "canactions.com",
    "kneu.edu.ua", "knu.ua", "hyeseonshin.com", "worldscientific.com", "amt.copernicus.org",
    "voxukraine.org", "imdb.com", "funball.org.ua", "rayrada.ck.ua", "new.knute.edu.ua",
    "en.wikipedia.org", "kiu.europa-uni.de", "savvy.ua", "laespecial.com.ar",
    "events.bank.gov.ua", "dbnl.org", "research.wur.nl", "ukma.edu.ua",
    "artsandculture.google.com", "ekmair.ukma.edu.ua", "tabs.ultimate-guitar.com",
    "biblioteka.cdu.edu.ua", "kolosok.org.ua", "zakon.rada.gov.ua", "periodicals.karazin.ua",
    "pharmacologyonline.silae.it", "molodyivchenyi.ua", "obuvna.com", "journals.uran.ua",
    "epc.eu", "yur-gazeta.com", "uadairy.com", "poleart.com", "archive.org", "lib.vsmu.by",
    "iovs.arvojournals.org", "marikamagazine.com", "ua.h-index.com", "jeeng.net", "m.ksis.eu",
    "beket.com.ua", "nashigroshi.org", "vakp.nlu.edu.ua", "laska.ua", "kniazha.ua",
    "citizen.in.ua", "eprints.kname.edu.ua", "istpravda.com.ua", "unba.com.ua", "umoloda.kiev.ua",
    "okhtyrka.net", "pravoslavie.poltava.ua", "shaj.sumdu.edu.ua", "grd.gov.ua",
    "journals.aps.org", "okl.kiev.ua", "fin.org.ua", "ssoar.info", "mulitvinov.cz",
    "sites.google.com", "europepmc.org", "idnes.cz", "osce.org.ua", "csecurity.kubg.edu.ua",
    "cordis.europa.eu", "44.ua", "hal.science", "indico.cern.ch", "pubs.acs.org",
    "meetingorganizer.copernicus.org", "jci.org", "books.openbookpublishers.com", "dejure.org",
    "hi-tech.ua", "esu.com.ua", "sid.ir", "people.rada.gov.ua", "laender-analysen.de",
    "kdpu.edu.ua", "pubs.acs.org", "polissyafc.com", "dblp.org", "bashtanskaotg.gov.ua"]

def url_stop_words : List String :=
  [ "weather", "pogoda", "snih", "dozhd", "mokryj-snih", "ozheledytsia", "timetable", "rozklad",
    "ticket", "passengers", "realtor", "kvartira", "orenda", "auction", "prozorro.sale", "clinic",
    "likar", "appointment", "reviews", "med-center", "login", "signup", "register", "cart",
    "checkout", "followers", "following", "site/mathresult", "search?q=", "kved", "fo-p",
    "persons", "dosye"]

def LINKS_TO_REMOVE : List String :=
  [ ".pdf", ".ru", "https://www.bbc.com/ukrainian/news-62062756",
    "https://www.ukr.net/news/details/fotoreportazh/107095360.html",
    "https://voxukraine.org/authors/oleg-nivyevskij",
    "https://www.youtube.com/watch?v=ph1DKPOf9_s",
    "https://www.ifpri.org/newsletter/ifpri-insights-april-2023/",
    "https://forbes.ua/lifestyle/15-liderok-v-ukrainskiy-nautsi-spisok-forbes-13022024-19132",
    "https://www.iamo.de/en/news/news/article/iamo-bei-dem-18-eaae-kongress-food-system-transformation-in-challenging-times-in-bonn",
    "https://www.iamo.de/en/institute/staff/details/perekhozhuk/publications",
    "https://voxukraine.org/authors/kristina-kovalova",
    "https://voxukraine.org/promovchaty-chy-manipulyuvaty-yak-deputaty-poyasnyly-svoyu-pidtrymku-zakonoproyektu-12414",
    "https://voxukraine.org/authors/vladyslav-ordeha",
    "https://voxukraine.org/authors/ellina-yurchenko",
    "https://www.youtube.com/@%D0%94%D1%83%D1%88%D0%BA%D0%BE%D0%94%D0%BC%D0%B8%D1%82%D1%80%D0%BE",
    "https://freepolicybriefs.org/speaker_category/author/",
    "https://www.youtube.com/watch?v=gPHqA71BFWc", "https://www.youtube.com/watch?v=4h1nqwbV1v0",
    "https://www.youtube.com/watch?v=kt0U1xilRAI",
    "https://www.oei.fu-berlin.de/en/wirtschaft/UKRAINE/Profile/Oleg-Nivievskyi.html"]

def REWRITE_NAMES : List (String × String) :=
  [ ("Center for Food and Land Use Research (KSE Agrocenter)", "KSE Agrocenter"),
    ("Агроцентр KSE", "KSE Agrocenter"),
    ("Oleg Nivievskyi", "Oleh Nivievskyi"),
    ("Олег Нів’євський", "Oleh Nivievskyi"),
    ("Марія Богонос", "Mariia Bogonos"),
    ("Павло Мартишев", "Pavlo Martyshev"),
    ("Валентин Літвінов", "Valentyn Litvinov"),
    ("Іван Колодяжний", "Ivan Kolodiazhnyi"),
    ("Елліна Юрченко", "Ellina Iurchenko"),
    ("Роксолана Назаркіна", "Roksolana Nazarkina"),
    ("Артур Бурак", "Artur Burak"),
    ("Дмитро Тесленко", "Dmytro Tеslеnko"),
    ("Дмитро Душко", "Dmytro Dushko"),
    ("Григорій Стольнікович", "Hryhorii Stolnikovych"),
    ("Роман Нейтер", "Roman Neyter"),
    ("Ігор Піддубний", "Igor Piddubnyi")]

/-! ## Predicates used by the claims -/

/-- Case-insensitive string equality (the comparison the classifier claim
speaks about). -/
def ciEq (a b : String) : Bool := pyLower a == pyLower b

/-- The body-text length invariant: a non-null `Tittle text` value has at
most `n` characters. -/
def textOK (n : Nat) (r : Row) : Prop :=
  ∀ s, r.titleText = some s → s.length ≤ n

/-! ## Lemmas about deduplication -/

theorem dedupGo_sublist (T : List Row) : ∀ seen, (dedupGo seen T).Sublist T := by
  induction T with
  | nil => intro seen; simp [dedupGo]
  | cons r rs ih =>
    intro seen
    simp only [dedupGo]
    split
    · exact List.Sublist.cons _ (ih seen)
    · exact List.Sublist.cons₂ _ (ih _)

theorem dedupGo_first_occ (T : List Row) :
    ∀ seen r', r' ∈ dedupGo seen T →
      r'.link ∉ seen ∧
        ∃ pre suf, T = pre ++ r' :: suf ∧ ∀ p ∈ pre, p.link ≠ r'.link := by
  induction T with
  | nil => intro seen r' h; simp [dedupGo] at h
  | cons r rs ih =>
    intro seen r' h
    simp only [dedupGo] at h
    split at h
    · next hc =>
      obtain ⟨hnot, pre, suf, heq, hpre⟩ := ih seen r' h
      refine ⟨hnot, r :: pre, suf, by rw [heq]; rfl, ?_⟩
      intro p hp
      rcases List.mem_cons.mp hp with hpr | hpp
      · subst hpr
        intro hlink
        exact hnot (hlink ▸ List.elem_iff.mp hc)
      · exact hpre p hpp
    · next hc =>
      rcases List.mem_cons.mp h with hr | hmem
      · subst hr
        refine ⟨fun hmem => hc (List.elem_iff.mpr hmem), [], rs, rfl, by simp⟩
      · obtain ⟨hnot, pre, suf, heq, hpre⟩ := ih _ r' hmem
        have hne : r.link ≠ r'.link := fun he => hnot (he ▸ List.mem_cons_self _ _)
        refine ⟨fun hs => hnot (List.mem_cons_of_mem _ hs), r :: pre, suf,
          by rw [heq]; rfl, ?_⟩
        intro p hp
        rcases List.mem_cons.mp hp with hpr | hpp
        · exact hpr ▸ hne
        · exact hpre p hpp

theorem dedupGo_links_nodup (T : List Row) :
    ∀ seen, ((dedupGo seen T).map Row.link).Nodup := by
  induction T with
  | nil => intro seen; simp [dedupGo]
  | cons r rs ih =>
    intro seen
    simp only [dedupGo]
    split
    · exact ih seen
    · rw [List.map_cons, List.nodup_cons]
      refine ⟨?_, ih _⟩
      intro hmem
      obtain ⟨r', hr', hlink⟩ := List.mem_map.mp hmem
      exact (dedupGo_first_occ rs _ r' hr').1 (hlink ▸ List.mem_cons_self _ _)

theorem dedupGo_covers (T : List Row) :
    ∀ seen r, r ∈ T → r.link ∈ seen ∨ ∃ r' ∈ dedupGo seen T, r'.link = r.link := by
  induction T with
  | nil => intro seen r h; simp at h
  | cons r0 rs ih =>
    intro seen r h
    simp only [dedupGo]
    rcases List.mem_cons.mp h with hr | hmem
    · subst hr
      split
      · next hc => exact Or.inl (List.elem_iff.mp hc)
      · exact Or.inr ⟨r, List.mem_cons_self _ _, rfl⟩
    · split
      · next hc => exact ih seen r hmem
      · rcases ih (r0.link :: seen) r hmem with hseen | ⟨r', hr', heq⟩
        · rcases List.mem_cons.mp hseen with h0 | hs
          · exact Or.inr ⟨r0, List.mem_cons_self _ _, h0.symm⟩
          · exact Or.inl hs
        · exact Or.inr ⟨r', List.mem_cons_of_mem _ hr', heq⟩

theorem dedupGo_eq_self (T : List Row) :
    ∀ seen, (T.map Row.link).Nodup → (∀ r ∈ T, r.link ∉ seen) →
      dedupGo seen T = T := by
  induction T with
  | nil => intro seen _ _; simp [dedupGo]
  | cons r rs ih =>
    intro seen hnd hs
    rw [List.map_cons, List.nodup_cons] at hnd
    simp only [dedupGo]
    split
    · next hc => exact absurd (List.elem_iff.mp hc) (hs r (List.mem_cons_self _ _))
    · rw [ih (r.link :: seen) hnd.2]
      intro r' hr'
      intro hmem
      rcases List.mem_cons.mp hmem with he | hseen
      · exact hnd.1 (he ▸ List.mem_map_of_mem Row.link hr')
      · exact hs r' (List.mem_cons_of_mem _ hr') hseen

theorem removeDuplicates_idem (T : List Row) :
    removeDuplicates (removeDuplicates T) = removeDuplicates T :=
  dedupGo_eq_self _ [] (dedupGo_links_nodup T []) (fun _ _ => List.not_mem_nil _)

/-! ## Lemmas about renaming -/

theorem lookupStr_mem (M : List (String × String)) :
    ∀ p v, lookupStr M p = some v → (p, v) ∈ M := by
  induction M with
  | nil => intro p v h; simp [lookupStr] at h
  | cons kv rest ih =>
    intro p v h
    obtain ⟨k, w⟩ := kv
    simp only [lookupStr] at h
    split at h
    · next hk =>
      rw [Option.some_inj] at h
      exact (beq_iff_eq.mp hk ▸ h ▸ List.mem_cons_self _ _)
    · exact List.mem_cons_of_mem _ (ih p v h)

theorem renameRow_idem (M : List (String × String))
    (h : ∀ p ∈ M, lookupStr M p.2 = none ∨ lookupStr M p.2 = some p.2) :
    ∀ r, renameRow M (renameRow M r) = renameRow M r := by
  intro r
  cases hl : lookupStr M r.person with
  | none => simp [renameRow, hl]
  | some v =>
    have hv := h (r.person, v) (lookupStr_mem M _ _ hl)
    rcases hv with hv | hv <;> simp [renameRow, hl, hv]

/-! ## Claims C4 and C5 -/

/-- C4 (amended): deduplication is idempotent for every table, and person
renaming is idempotent for every mapping `M` whose values are not
themselves remapped to a different value (`lookupStr M v` is `none` or
`some v` for every value `v` of `M`) — not for *every* mapping, see
`claim_C4_counterexample`. -/
theorem claim_C4 (T : List Row) (M : List (String × String)) :
    removeDuplicates (removeDuplicates T) = removeDuplicates T ∧
    ((∀ p ∈ M, lookupStr M p.2 = none ∨ lookupStr M p.2 = some p.2) →
      renamePerson M (renamePerson M T) = renamePerson M T) := by
  refine ⟨removeDuplicates_idem T, fun h => ?_⟩
  simp only [renamePerson]
  rw [List.map_map]
  exact List.map_congr_left (fun r _ => renameRow_idem M h r)

/-- C4 as stated is false: with the chained mapping `{a ↦ b, b ↦ c}`,
renaming twice maps `a` to `c` while renaming once maps it to `b`. -/
theorem claim_C4_counterexample :
    renamePerson [("a", "b"), ("b", "c")]
        (renamePerson [("a", "b"), ("b", "c")]
          [⟨"a", "t", none, "s", some "L", none⟩]) ≠
      renamePerson [("a", "b"), ("b", "c")]
        [⟨"a", "t", none, "s", some "L", none⟩] := by decide

/-- C4 witness: both idempotence halves at a concrete table and the
configured `REWRITE_NAMES` mapping (whose values are all fixed). -/
theorem claim_C4_witness :
    removeDuplicates (removeDuplicates
        [⟨"Олег Нів’євський", "t", none, "s", some "https://example.com/a", none⟩]) =
      removeDuplicates
        [⟨"Олег Нів’євський", "t", none, "s", some "https://example.com/a", none⟩] ∧
    renamePerson REWRITE_NAMES (renamePerson REWRITE_NAMES
        [⟨"Олег Нів’євський", "t", none, "s", some "https://example.com/a", none⟩]) =
      renamePerson REWRITE_NAMES
        [⟨"Олег Нів’євський", "t", none, "s", some "https://example.com/a", none⟩] := by
  have h := claim_C4
    [⟨"Олег Нів’євський", "t", none, "s", some "https://example.com/a", none⟩]
    REWRITE_NAMES
  exact ⟨h.1, h.2 (by decide)⟩

/-- C5: `remove_duplicates` keeps a subsequence of the table (relative
order preserved), the surviving `Link` values are pairwise distinct, every
`Link` of the input keeps a representative, and each survivor is the
*first* row of the input carrying its `Link` — in particular, of two rows
with the same `Link` and different `Person`, the earlier one survives. -/
theorem claim_C5 (T : List Row) :
    (removeDuplicates T).Sublist T ∧
    ((removeDuplicates T).map Row.link).Nodup ∧
    (∀ r, r ∈ T → ∃ r' ∈ removeDuplicates T, r'.link = r.link) ∧
    (∀ r', r' ∈ removeDuplicates T →
      ∃ pre suf, T = pre ++ r' :: suf ∧ ∀ p ∈ pre, p.link ≠ r'.link) := by
  refine ⟨dedupGo_sublist T [], dedupGo_links_nodup T [], ?_, ?_⟩
  · intro r hr
    rcases dedupGo_covers T [] r hr with h | h
    · exact absurd h (List.not_mem_nil _)
    · exact h
  · intro r' hr'
    exact (dedupGo_first_occ T [] r' hr').2

/-- C5 witness: in a table with two rows sharing `Link = some "L"`, a
representative with that link survives deduplication. -/
theorem claim_C5_witness :
    ∃ r' ∈ removeDuplicates
        [⟨"p1", "t1", none, "s1", some "L", none⟩,
         ⟨"p2", "t2", none, "s2", some "L", none⟩],
      r'.link = some "L" := by
  have h := (claim_C5
      [⟨"p1", "t1", none, "s1", some "L", none⟩,
       ⟨"p2", "t2", none, "s2", some "L", none⟩]).2.2.1
    ⟨"p2", "t2", none, "s2", some "L", none⟩ (by decide)
  exact h

/-! ## Lemmas about the URL filters (Claim C2) -/

theorem domainBlacklisted_of_aligned (B : List String) (dom d : String) (hd : d ∈ B)
    (h : dom = d ∨ pyEndsWith ("." ++ d) dom = true ∨ pyStartsWith (d ++ ".") dom = true) :
    domainBlacklisted B dom = true := by
  rw [domainBlacklisted, List.any_eq_true]
  refine ⟨d, hd, ?_⟩
  rcases h with h | h | h <;> simp [h]

theorem domainBlacklisted_eq_false (B : List String) (dom : String)
    (h : ∀ d ∈ B, dom ≠ d ∧ pyEndsWith ("." ++ d) dom = false ∧
      pyStartsWith (d ++ ".") dom = false) :
    domainBlacklisted B dom = false := by
  rw [domainBlacklisted, List.any_eq_false]
  intro d hd
  obtain ⟨h1, h2, h3⟩ := h d hd
  simp [h2, h3]
  exact h1

theorem check_relevance_false_of_aligned (B S : List String) (u d : String)
    (hd : d ∈ B)
    (hal : extractDomain u = d ∨ pyEndsWith ("." ++ d) (extractDomain u) = true ∨
      pyStartsWith (d ++ ".") (extractDomain u) = true) :
    check_relevance B S (some u) = false := by
  have hb := domainBlacklisted_of_aligned B (extractDomain u) d hd hal
  simp [check_relevance, hb]

theorem check_relevance_domain_clear (B S : List String) (u : String)
    (h : ∀ d ∈ B, extractDomain u ≠ d ∧
      pyEndsWith ("." ++ d) (extractDomain u) = false ∧
      pyStartsWith (d ++ ".") (extractDomain u) = false) :
    check_relevance B S (some u) = !(S.any (fun w => pyIn w (pyLower u))) := by
  have hb := domainBlacklisted_eq_false B _ h
  have hc : B.contains (extractDomain u) = false := by
    cases hc' : B.contains (extractDomain u) with
    | false => rfl
    | true => exact absurd rfl (h _ (List.elem_iff.mp hc')).1
  have hm : extractDomain u ∉ B := fun hm => (h _ hm).1 rfl
  cases hS : S.any (fun w => pyIn w (pyLower u)) with
  | false => simp [check_relevance, hb, hc, hS, hm]
  | true => simp [check_relevance, hb, hc, hS, hm]

/-- C2 (amended): the three-way boundary rule (host equals a blacklisted
entry, or ends with `"." + entry`, or starts with `entry + "."`) holds for
`DataSorting._check_relevance`: an aligned host is always rejected, and a
host with no boundary alignment against any entry is never rejected on
domain grounds — the verdict then reduces to the stop-word scan (the
concrete `notd.com` vs `d.com` pair is included).  The rule does NOT hold
for the second implementation `LinkFilter.is_relevant`, which rejects only
on exact equality of its www-stripped domain: see
`claim_C2_counterexample`. -/
theorem claim_C2 :
    (∀ B S : List String, ∀ u d : String, d ∈ B →
      (extractDomain u = d ∨ pyEndsWith ("." ++ d) (extractDomain u) = true ∨
        pyStartsWith (d ++ ".") (extractDomain u) = true) →
      check_relevance B S (some u) = false) ∧
    (∀ B S : List String, ∀ u : String,
      (∀ d ∈ B, extractDomain u ≠ d ∧
        pyEndsWith ("." ++ d) (extractDomain u) = false ∧
        pyStartsWith (d ++ ".") (extractDomain u) = false) →
      check_relevance B S (some u) = !(S.any (fun w => pyIn w (pyLower u)))) ∧
    check_relevance ["d.com"] [] (some "https://notd.com/x") = true := by
  exact ⟨check_relevance_false_of_aligned, check_relevance_domain_clear, by decide⟩

/-- C2 fails for `LinkFilter.is_relevant` as the claim states it: the host
`sub.kse.ua` is suffix-aligned with the blacklisted entry `kse.ua`, and
`_check_relevance` rejects the URL, but `is_relevant` keeps it (its title
stop-word list is `[]`; `configuration.py` defines no `title_stop_words`
at all, so `filters.py` cannot even be imported as shipped). -/
theorem claim_C2_counterexample :
    "kse.ua" ∈ blacklisted_domains ∧
    pyEndsWith ("." ++ "kse.ua") (extractDomain "https://sub.kse.ua/a") = true ∧
    check_relevance blacklisted_domains url_stop_words
      (some "https://sub.kse.ua/a") = false ∧
    is_relevant blacklisted_domains url_stop_words []
      (some "https://sub.kse.ua/a") "" = true := by
  exact ⟨by decide, by decide, by decide, by decide⟩

/-- C2 witness: both directions of the amended boundary rule applied at
concrete blacklists and URLs. -/
theorem claim_C2_witness :
    check_relevance ["kse.ua"] [] (some "https://sub.kse.ua/a") = false ∧
    check_relevance ["d.com"] ["ticket"] (some "https://notd.com/x") =
      !(["ticket"].any (fun w => pyIn w (pyLower "https://notd.com/x"))) := by
  constructor
  · exact claim_C2.1 ["kse.ua"] [] "https://sub.kse.ua/a" "kse.ua" (by decide)
      (Or.inr (Or.inl (by decide)))
  · exact claim_C2.2.1 ["d.com"] ["ticket"] "https://notd.com/x" (by decide)

/-! ## Claims C3, C6, C7, C8 -/

/-- C3: the per-field short-circuit claim fails on the code.
`_newspaper_parse` writes `article.text` into `Tittle text`
*unconditionally* (data_sorting.py line 271-272) and performs its fetch
regardless of which fields are filled, contradicting both the claim and
the method's own docstring ("If there isn't Tittle text, this method
attempts to find value").  Evaluating the chain at a row whose
`Tittle text` is already `some "OLD"`: the first strategy overwrites it
with the freshly extracted text.  (The `Date` guard, by contrast, is
present in the code: here the pre-existing date survives.) -/
theorem claim_C3 :
    (fillSingleBlankSlot (fun _ => some ("FRESH", none)) (fun _ => some none)
        (fun _ => none)
        ⟨"p", "t", some "2024-01-02", "s", some "https://ex.com/a", some "OLD"⟩).titleText
      = some "FRESH" ∧
    (fillSingleBlankSlot (fun _ => some ("FRESH", none)) (fun _ => some none)
        (fun _ => none)
        ⟨"p", "t", some "2024-01-02", "s", some "https://ex.com/a", some "OLD"⟩).date
      = some "2024-01-02" := by
  exact ⟨rfl, rfl⟩

/-- C6: date normalization maps a non-null raw value to exactly its first
10 characters, leaves null as null, maps the empty string to the empty
string without error, and `fill_single_blank_slot` applies exactly this
normalization to whatever date the strategy chain produced. -/
theorem claim_C6 :
    (∀ s, normalizeDate (some s) = some (pyTake 10 s)) ∧
    normalizeDate none = none ∧
    normalizeDate (some "2023-05-01T10:00:00Z") = some "2023-05-01" ∧
    normalizeDate (some "") = some "" ∧
    (∀ (no : String → Option (String × Option String))
        (ho : String → Option (Option String)) (ro : String → Option String)
        (r : Row) (u : String), r.link = some u → u ≠ "" →
      (fillSingleBlankSlot no ho ro r).date =
        normalizeDate (requestsParse ho ro 1500 (newspaperParse no 1500 r)).date) := by
  refine ⟨fun s => rfl, rfl, by decide, rfl, ?_⟩
  intro no ho ro r u hl hu
  have hcond : ¬(r.link = none ∨ r.link = some "") := by
    rw [hl]; simp [hu]
  simp only [fillSingleBlankSlot]
  rw [if_neg hcond]

/-- C6 witness: the normalization identity of `fill_single_blank_slot`
instantiated at a concrete row and concrete oracles. -/
theorem claim_C6_witness :
    (fillSingleBlankSlot (fun _ => some ("T", some "2023-05-01T10:00:00Z"))
        (fun _ => some none) (fun _ => none)
        ⟨"p", "t", none, "s", some "https://ex.com/a", none⟩).date =
      normalizeDate (requestsParse (fun _ => some none) (fun _ => none) 1500
        (newspaperParse (fun _ => some ("T", some "2023-05-01T10:00:00Z")) 1500
          ⟨"p", "t", none, "s", some "https://ex.com/a", none⟩)).date := by
  exact claim_C6.2.2.2.2 _ _ _ _ "https://ex.com/a" rfl (by decide)

/-- C7: `is_article` returns `true` exactly when the oracle's stripped
answer equals `"yes"` under case-insensitive comparison; every other
answer yields `false`. -/
theorem claim_C7 (ans : String) :
    is_article ans = true ↔ ciEq (pyStrip ans) "yes" = true := by
  have h : pyLower "yes" = "yes" := rfl
  simp only [is_article, ciEq]
  rw [h]

/-- C8: a row whose `Link` is null or empty is left entirely unchanged by
`fill_single_blank_slot`, whatever the enrichment oracles would return. -/
theorem claim_C8 (no : String → Option (String × Option String))
    (ho : String → Option (Option String)) (ro : String → Option String)
    (r : Row) (h : r.link = none ∨ r.link = some "") :
    fillSingleBlankSlot no ho ro r = r := by
  simp only [fillSingleBlankSlot]
  rw [if_pos h]

/-- C8 witness: a null-link row is unchanged even by oracles that would
find both a date and a text. -/
theorem claim_C8_witness :
    fillSingleBlankSlot (fun _ => some ("X", some "2020-01-01"))
        (fun _ => some (some "2020-01-01")) (fun _ => some "BODY")
        ⟨"p", "t", none, "s", none, none⟩ =
      ⟨"p", "t", none, "s", none, none⟩ :=
  claim_C8 _ _ _ _ (Or.inl rfl)

/-! ## Lemmas about the body-text bound (Claim C9) -/

theorem pyTake_length_le (n : Nat) (s : String) : (pyTake n s).length ≤ n := by
  show (s.data.take n).length ≤ n
  rw [List.length_take]
  exact min_le_left _ _

theorem newspaperParse_titleText (no : String → Option (String × Option String))
    (n : Nat) (r : Row) :
    (newspaperParse no n r).titleText = r.titleText ∨
      ∃ t, (newspaperParse no n r).titleText = some (pyTake n t) := by
  cases hl : r.link with
  | none => exact Or.inl (by simp [newspaperParse, hl])
  | some url =>
    cases ho : no url with
    | none => exact Or.inl (by simp [newspaperParse, hl, ho])
    | some tp =>
      obtain ⟨text, pdate⟩ := tp
      by_cases ht : text == ""
      · refine Or.inl ?_
        cases pdate with
        | none => simp [newspaperParse, hl, ho, ht]
        | some d =>
          by_cases hd : r.date = none <;> simp [newspaperParse, hl, ho, ht, hd]
      · refine Or.inr ⟨text, ?_⟩
        cases pdate with
        | none => simp [newspaperParse, hl, ho, ht]
        | some d =>
          by_cases hd : r.date = none <;> simp [newspaperParse, hl, ho, ht, hd]

theorem findSingleDate_titleText (ho : String → Option (Option String)) (r : Row) :
    (findSingleDate ho r).titleText = r.titleText := by
  cases hl : r.link with
  | none => simp [findSingleDate, hl]
  | some url =>
    cases hd : ho url with
    | none => simp [findSingleDate, hl, hd]
    | some od => cases od <;> simp [findSingleDate, hl, hd]

theorem requestsParse_titleText (ho : String → Option (Option String))
    (ro : String → Option String) (n : Nat) (r : Row) :
    (requestsParse ho ro n r).titleText = r.titleText ∨
      ∃ t, (requestsParse ho ro n r).titleText = some (pyTake n t) := by
  have key : ∀ (link : Option String) (r1 : Row),
      (requestsText ro n link r1).titleText = r1.titleText ∨
        ∃ t, (requestsText ro n link r1).titleText = some (pyTake n t) := by
    intro link r1
    by_cases ht : r1.titleText = none
    · cases link with
      | none => exact Or.inl (by simp [requestsText, ht])
      | some url =>
        cases hro : ro url with
        | none => exact Or.inl (by simp [requestsText, ht, hro])
        | some body =>
          exact Or.inr ⟨collapseWS body, by simp [requestsText, ht, hro]⟩
    · exact Or.inl (by simp [requestsText, ht])
  have h1 : (if r.date = none then findSingleDate ho r else r).titleText = r.titleText := by
    by_cases hd : r.date = none <;> simp [hd, findSingleDate_titleText]
  rcases key r.link (if r.date = none then findSingleDate ho r else r) with hc | ⟨t, hc⟩
  · exact Or.inl ((hc.trans h1))
  · exact Or.inr ⟨t, hc⟩

theorem fillSingleBlankSlot_titleText (no : String → Option (String × Option String))
    (ho : String → Option (Option String)) (ro : String → Option String) (r : Row) :
    (fillSingleBlankSlot no ho ro r).titleText = r.titleText ∨
      ∃ t, (fillSingleBlankSlot no ho ro r).titleText = some (pyTake 1500 t) := by
  simp only [fillSingleBlankSlot]
  split
  · exact Or.inl rfl
  · have h2 := requestsParse_titleText ho ro 1500 (newspaperParse no 1500 r)
    have h1 := newspaperParse_titleText no 1500 r
    rcases h2 with h2 | ⟨t, h2⟩
    · rcases h1 with h1 | ⟨t, h1⟩
      · exact Or.inl (h2.trans h1)
      · exact Or.inr ⟨t, h2.trans h1⟩
    · exact Or.inr ⟨t, h2⟩

theorem renameRow_titleText (M : List (String × String)) (r : Row) :
    (renameRow M r).titleText = r.titleText := by
  cases h : lookupStr M r.person <;> simp [renameRow, h]

/-- C9: the ≤ 1500 bound on non-null `Tittle text` values is preserved by
enrichment and by every other table operation of the pipeline, and any
value freshly written by `fill_single_blank_slot` is truncated to 1500
characters even when the incoming row violated the bound. -/
theorem claim_C9 (no : String → Option (String × Option String))
    (ho : String → Option (Option String)) (ro : String → Option String)
    (B S : List String) (M : List (String × String)) (L : List String)
    (T : List Row) (h : ∀ r ∈ T, textOK 1500 r) :
    (∀ r ∈ fillAllBlankSlots no ho ro T, textOK 1500 r) ∧
    (∀ r ∈ removeDuplicates T, textOK 1500 r) ∧
    (∀ r ∈ renamePerson M T, textOK 1500 r) ∧
    (∀ r ∈ removeByLinks L T, textOK 1500 r) ∧
    (∀ r ∈ applyUrlFilter B S T, textOK 1500 r) ∧
    (∀ r, ∀ s, (fillSingleBlankSlot no ho ro r).titleText = some s →
      r.titleText = some s ∨ s.length ≤ 1500) := by
  have hwrite : ∀ r, ∀ s, (fillSingleBlankSlot no ho ro r).titleText = some s →
      r.titleText = some s ∨ s.length ≤ 1500 := by
    intro r s hs
    rcases fillSingleBlankSlot_titleText no ho ro r with hc | ⟨t, hc⟩
    · exact Or.inl (hc ▸ hs)
    · rw [hc] at hs
      rw [Option.some_inj] at hs
      exact Or.inr (hs ▸ pyTake_length_le 1500 t)
  refine ⟨?_, ?_, ?_, ?_, ?_, hwrite⟩
  · intro r hr
    obtain ⟨r0, hr0, hre⟩ := List.mem_map.mp hr
    intro s hs
    rcases hwrite r0 s (hre ▸ hs) with hold | hle
    · exact h r0 hr0 s hold
    · exact hle
  · intro r hr
    exact h r ((dedupGo_sublist T []).subset hr)
  · intro r hr
    obtain ⟨r0, hr0, hre⟩ := List.mem_map.mp hr
    intro s hs
    exact h r0 hr0 s (by rw [← renameRow_titleText M r0, hre]; exact hs)
  · intro r hr
    exact h r (List.mem_filter.mp hr).1
  · intro r hr
    exact h r (List.mem_filter.mp hr).1

/-- C9 witness: the enrichment invariant applied to a concrete one-row
table whose enrichment writes a fresh (truncated) body text. -/
theorem claim_C9_witness :
    textOK 1500 (fillSingleBlankSlot (fun _ => some ("FRESH", none))
      (fun _ => some none) (fun _ => none)
      ⟨"p", "t", none, "s", some "https://ex.com/a", none⟩) := by
  have h := (claim_C9 (fun _ => some ("FRESH", none)) (fun _ => some none)
      (fun _ => none) [] [] [] []
      [⟨"p", "t", none, "s", some "https://ex.com/a", none⟩]
      (by
        intro r hr
        rw [List.mem_singleton] at hr
        subst hr
        intro s hs
        exact Option.noConfusion hs)).1
  exact h _ (List.mem_singleton.mpr rfl)

/-! ## Lemmas about `remove_by_links` (Claim C10) -/

theorem any_map_eq {α β : Type} (f : α → β) (l : List α) (p : β → Bool) :
    (l.map f).any p = l.any (fun x => p (f x)) := by
  induction l with
  | nil => rfl
  | cons x xs ih => simp [ih]

theorem splitPipe_nopipe (x : List Char) (hx : '|' ∉ x) : splitPipe x = [x] := by
  induction x with
  | nil => rfl
  | cons c cs ih =>
    have hc : ¬(c = '|') := fun he => hx (he ▸ List.mem_cons_self _ _)
    have ih' := ih (fun hm => hx (List.mem_cons_of_mem _ hm))
    simp only [splitPipe]
    rw [if_neg hc, ih']

theorem splitPipe_append (x r : List Char) (hx : '|' ∉ x) :
    splitPipe (x ++ '|' :: r) = x :: splitPipe r := by
  induction x with
  | nil => simp [splitPipe]
  | cons c cs ih =>
    have hc : ¬(c = '|') := fun he => hx (he ▸ List.mem_cons_self _ _)
    have ih' := ih (fun hm => hx (List.mem_cons_of_mem _ hm))
    simp only [List.cons_append, splitPipe]
    rw [if_neg hc]
    simp only [List.append_eq]
    rw [ih']

theorem splitPipe_joinPipe (ls : List (List Char)) :
    ls ≠ [] → (∀ x ∈ ls, '|' ∉ x) → splitPipe (joinPipe ls) = ls := by
  induction ls with
  | nil => intro h; exact absurd rfl h
  | cons x xs ih =>
    intro _ h
    cases xs with
    | nil => exact splitPipe_nopipe x (h x (List.mem_cons_self _ _))
    | cons y ys =>
      show splitPipe (x ++ '|' :: joinPipe (y :: ys)) = x :: y :: ys
      rw [splitPipe_append x _ (h x (List.mem_cons_self _ _))]
      rw [ih (by simp) (fun z hz => h z (List.mem_cons_of_mem _ hz))]

theorem regexContains_joined (links : List String) (hne : links ≠ [])
    (hp : ∀ e ∈ links, '|' ∉ e.data) (l : List Char) :
    regexContains (joinPipe (links.map String.data)) l =
      links.any (fun e => rsearch (parseRegex e.data) l) := by
  rw [regexContains, splitPipe_joinPipe (links.map String.data)
    (by
      intro he
      exact hne (List.map_eq_nil_iff.mp he))
    (by
      intro x hx
      obtain ⟨e, he, hxe⟩ := List.mem_map.mp hx
      exact hxe ▸ hp e he)]
  exact any_map_eq String.data links _

/-- C10: `remove_by_links` removes a row exactly when its `Link` matches
the regular-expression alternation of the entries (the entries are regex
patterns, not literal substrings — `".pdf"` also matches `"xpdf"`, which
contains no literal `".pdf"`), and rows with a null `Link` are always
retained.  (The hypotheses hold for the configured `LINKS_TO_REMOVE`:
nonempty, and no entry contains `'|'`.) -/
theorem claim_C10 (links : List String) (T : List Row) (h1 : links ≠ [])
    (h2 : ∀ e ∈ links, '|' ∉ e.data) :
    removeByLinks links T = T.filter (fun r =>
        match r.link with
        | none => true
        | some l => !(links.any (fun e => rsearch (parseRegex e.data) l.data))) ∧
    (∀ r ∈ T, r.link = none → r ∈ removeByLinks links T) ∧
    rsearch (parseRegex ".pdf".data) "https://a.com/xpdf".data = true ∧
    containsSub "https://a.com/xpdf".data ".pdf".data = false := by
  have heq : removeByLinks links T = T.filter (fun r =>
      match r.link with
      | none => true
      | some l => !(links.any (fun e => rsearch (parseRegex e.data) l.data))) := by
    simp only [removeByLinks]
    apply List.filter_congr
    intro r _
    cases hl : r.link with
    | none => rfl
    | some l => simp only [regexContains_joined links h1 h2]
  refine ⟨heq, ?_, by decide, by decide⟩
  intro r hr hl
  rw [heq, List.mem_filter]
  refine ⟨hr, ?_⟩
  rw [hl]

/-- C10 witness: with the configured `LINKS_TO_REMOVE`, a row with a null
`Link` survives `remove_by_links`. -/
theorem claim_C10_witness :
    (⟨"p", "t", none, "s", none, none⟩ : Row) ∈
      removeByLinks LINKS_TO_REMOVE [⟨"p", "t", none, "s", none, none⟩] := by
  have h := (claim_C10 LINKS_TO_REMOVE [⟨"p", "t", none, "s", none, none⟩]
    (by decide) (by decide)).2.1
  exact h _ (List.mem_singleton.mpr rfl) rfl

/-! ## Claim C1: the orchestrated pipeline -/

/-- C1 fails on the code: `process_and_sort_data` never completes.  After
enrichment, `main.py` line 89 invokes `sorter.apply_ai_filter()`, but
`DataSorting` defines no attribute of that name, so every run raises
`AttributeError` before sorting and export — for *every* input table and
oracle behavior, including the claim's own degenerate case (a well-formed
row, every enrichment oracle finding nothing, full shipped configuration:
first conjunct). -/
theorem claim_C1 :
    process_and_sort_data blacklisted_domains url_stop_words REWRITE_NAMES
        LINKS_TO_REMOVE (fun _ => none) (fun _ => none) (fun _ => none)
        [⟨"Oleg Nivievskyi", "t", none, "s", some "https://example.com/a", none⟩] =
      Except.error
        "AttributeError: DataSorting object has no attribute apply_ai_filter" ∧
    (∀ (B S : List String) (M : List (String × String)) (L : List String)
        (no : String → Option (String × Option String))
        (ho : String → Option (Option String)) (ro : String → Option String)
        (T : List Row),
      ∃ msg, process_and_sort_data B S M L no ho ro T = Except.error msg) := by
  exact ⟨rfl, fun B S M L no ho ro T => ⟨_, rfl⟩⟩

end KSEA
